import Mathlib

/-!
Verification of the PostgreSQL wire proxy (uktrade/postgres-audit-proxy).

The development shallowly embeds the two source files:

* `app.py` — the incremental message framer (`postgres_message_parser` /
  `attempt_pop_message` / `extract_messages`), the MD5 authentication
  rewriter (`postgres_auth_processor` and its helpers), and the byte-level
  helpers `unpack_length`, `pack_length`, `md5`, `md5_salted`;
* `jwt_postgresql_proxy.py` — the JWT-authenticated handshake
  (`handle_downstream`, `downstream_startup`, `downstream_authenticate`,
  `recv_exactly`, `b64_decode`).

Bytes are modelled as `Nat` (wire values 0–255), byte strings as `List Nat`.
Python exceptions are modelled with `Option`/`Except`.  Cryptographic
primitives from outside the repository (hashlib's MD5, Ed25519 signature
verification, base64 decoding, JSON parsing) are modelled as parameters,
together with the shape facts the code relies on.
-/

namespace PostgresAuditProxy

/-- A single wire byte, as a natural number (0–255 on the real wire). -/
abbrev Byte := Nat

/-- Big-endian decoding of a byte string into a natural number.
This is what `struct.unpack("!L", b)[0]` computes on a 4-byte input. -/
def toNat4 (bs : List Byte) : Nat :=
  bs.foldl (fun acc b => acc * 256 + b) 0

/-- Big-endian 4-byte encoding, the image of `struct.pack("!L", n)`
(which in Python raises for `n ≥ 2^32`; the encoding below is total and
agrees with `struct.pack` on all in-range inputs). -/
def encode4 (n : Nat) : List Byte :=
  [n / 2 ^ 24 % 256, n / 2 ^ 16 % 256, n / 2 ^ 8 % 256, n % 256]

theorem length_encode4 (n : Nat) : (encode4 n).length = 4 := rfl

theorem toNat4_encode4 (n : Nat) : toNat4 (encode4 n) = n % 2 ^ 32 := by
  simp only [toNat4, encode4, List.foldl]
  omega

/-- `PAYLOAD_LENGTH_LENGTH` from `app.py`: the length field takes 4 bytes. -/
def PAYLOAD_LENGTH_LENGTH : Nat := 4

/-- `NO_DATA_TYPE = b"N"` from `app.py`. -/
def NO_DATA_TYPE : List Byte := [78]

/-- `SSL_REQUEST_PAYLOAD = b"\x04\xd2\x16/"` from `app.py`. -/
def SSL_REQUEST_PAYLOAD : List Byte := [4, 210, 22, 47]

/-- `unpack_length` from `app.py`:
`struct.unpack("!L", length_bytes)[0] - PAYLOAD_LENGTH_LENGTH`.
`struct.unpack` raises unless given exactly 4 bytes, hence the `Option`;
the subtraction is over `Int` because the result can be negative. -/
def unpack_length (length_bytes : List Byte) : Option Int :=
  if length_bytes.length = 4 then
    some ((toNat4 length_bytes : Int) - (PAYLOAD_LENGTH_LENGTH : Int))
  else none

/-- `pack_length` from `app.py`: `struct.pack("!L", length + 4)`. -/
def pack_length (length : Nat) : List Byte :=
  encode4 (length + PAYLOAD_LENGTH_LENGTH)

/-- The `Message` namedtuple from `app.py`.  `payload_length` holds the raw
bytes of the declared-length field (0 or 4 bytes), not a number. -/
structure Message where
  type : List Byte
  payload_length : List Byte
  payload : List Byte
deriving DecidableEq, Repr

/-- Concatenation of the three components of a message — what
`b"".join(flatten([message]))` produces in `app.py`. -/
def message_bytes (m : Message) : List Byte :=
  m.type ++ m.payload_length ++ m.payload

/-- Concatenation of the on-wire bytes of a list of messages. -/
def messages_bytes (ms : List Message) : List Byte :=
  (ms.map message_bytes).flatten

/-- The state hidden in the closure returned by
`postgres_message_parser(num_startup_messages)` in `app.py`. -/
structure ParserState where
  num_startup_messages : Nat
  data_buffer : List Byte
  messages_popped : Nat
deriving DecidableEq, Repr

/-- The freshly created state of `postgres_message_parser`:
empty buffer, zero messages popped. -/
def ParserState.init (num_startup_messages : Nat) : ParserState :=
  ⟨num_startup_messages, [], 0⟩

/-- `attempt_pop_message(type_length)` from `app.py`, acting on the
`data_buffer`.  Returns `(has_popped, message, new_buffer)`.  The outer
`Option` models a Python exception (only `struct.unpack` inside
`unpack_length` can raise, and `attempt_pop_total` below shows it never
does).  Python slices `buffer[a:b]` with `0 ≤ a`, `0 ≤ b` are rendered as
`(buffer.drop a).take (b - a)` (clamped at 0), which agrees with Python
for every reachable index pair. -/
def attempt_pop_message (data_buffer : List Byte) (type_length : Nat) :
    Option (Bool × Message × List Byte) :=
  let type_bytes := data_buffer.take type_length
  let has_type_bytes : Bool := type_bytes.length == type_length
  let payload_length_length : Nat :=
    if has_type_bytes && (type_bytes == NO_DATA_TYPE) then 0
    else PAYLOAD_LENGTH_LENGTH
  let payload_length_bytes := (data_buffer.drop type_length).take payload_length_length
  let has_payload_length_bytes : Bool :=
    has_type_bytes && (payload_length_bytes.length == payload_length_length)
  let should_unpack : Bool := has_payload_length_bytes && (payload_length_length != 0)
  (if should_unpack then unpack_length payload_length_bytes else some 0).map
    fun payload_length =>
      let payload_bytes :=
        (data_buffer.drop (type_length + payload_length_length)).take payload_length.toNat
      let has_payload_bytes : Bool :=
        has_payload_length_bytes && ((payload_bytes.length : Int) == payload_length)
      let new_buffer :=
        if has_payload_bytes then
          data_buffer.drop (type_length + payload_length_length + payload_length.toNat)
        else data_buffer
      (has_payload_bytes,
        Message.mk type_bytes payload_length_bytes payload_bytes,
        new_buffer)

/-- `attempt_pop_message` never raises: `unpack_length` is only reached
with exactly `PAYLOAD_LENGTH_LENGTH` bytes. -/
theorem attempt_pop_total (data_buffer : List Byte) (type_length : Nat) :
    (attempt_pop_message data_buffer type_length).isSome := by
  simp only [attempt_pop_message, Option.isSome_map']
  by_cases hN : (((data_buffer.take type_length).length == type_length) &&
      (data_buffer.take type_length == NO_DATA_TYPE)) = true
  · rw [if_pos hN]
    simp
  · rw [if_neg hN]
    by_cases hplb : (((data_buffer.take type_length).length == type_length) &&
        (((data_buffer.drop type_length).take PAYLOAD_LENGTH_LENGTH).length ==
          PAYLOAD_LENGTH_LENGTH)) = true
    · have hlen : ((data_buffer.drop type_length).take PAYLOAD_LENGTH_LENGTH).length = 4 := by
        have h' := hplb
        rw [Bool.and_eq_true] at h'
        exact beq_iff_eq.1 h'.2
      rw [if_pos (by rw [hplb]; rfl)]
      simp only [unpack_length]
      rw [if_pos hlen]
      simp
    · rw [if_neg (by simp only [Bool.not_eq_true] at hplb ⊢; rw [hplb]; rfl)]
      simp

/-- When `attempt_pop_message` does not pop, the buffer is left unchanged
(`to_remove = slice(0, 0)`). -/
theorem attempt_pop_not_popped {buf : List Byte} {tl : Nat} {m : Message}
    {buf' : List Byte} (h : attempt_pop_message buf tl = some (false, m, buf')) :
    buf' = buf := by
  simp only [attempt_pop_message, Option.map_eq_some', Prod.mk.injEq] at h
  obtain ⟨pl, -, hb, -, hnb⟩ := h
  rw [← hnb, hb]
  simp

/-- Complete characterization of a successful pop: either the buffer starts
with the one-byte `'N'` message (only possible with `type_length = 1`), or a
full type byte, 4-byte length field and declared payload are available. -/
theorem attempt_pop_popped_iff (buf : List Byte) (tl : Nat) (m : Message)
    (buf' : List Byte) :
    attempt_pop_message buf tl = some (true, m, buf') ↔
      ((tl = 1 ∧ ∃ rest, buf = 78 :: rest ∧ m = ⟨[78], [], []⟩ ∧ buf' = rest) ∨
       (tl + 4 ≤ buf.length ∧ ¬ buf.take tl = [78] ∧
         4 ≤ toNat4 ((buf.drop tl).take 4) ∧
         tl + toNat4 ((buf.drop tl).take 4) ≤ buf.length ∧
         m = ⟨buf.take tl, (buf.drop tl).take 4,
              (buf.drop (tl + 4)).take (toNat4 ((buf.drop tl).take 4) - 4)⟩ ∧
         buf' = buf.drop (tl + toNat4 ((buf.drop tl).take 4)))) := by
  constructor
  · intro h
    simp only [attempt_pop_message, NO_DATA_TYPE, PAYLOAD_LENGTH_LENGTH,
      Option.map_eq_some', Prod.mk.injEq] at h
    obtain ⟨pl, hpl, hpb, hm, hnb⟩ := h
    by_cases hN : (((buf.take tl).length == tl) && (buf.take tl == [78])) = true
    · rw [if_pos hN] at hpl hpb hm hnb
      have hN' := hN
      rw [Bool.and_eq_true] at hN'
      have hlen : (buf.take tl).length = tl := beq_iff_eq.1 hN'.1
      have htk : buf.take tl = [78] := beq_iff_eq.1 hN'.2
      have htl : tl = 1 := by rw [htk] at hlen; simpa using hlen.symm
      subst htl
      obtain ⟨b, rest, hbuf⟩ : ∃ b rest, buf = b :: rest := by
        cases buf with
        | nil => simp at htk
        | cons b rest => exact ⟨b, rest, rfl⟩
      subst hbuf
      have hb78 : b = 78 := by simpa using htk
      subst hb78
      have hpl0 : pl = 0 := by
        simp at hpl
        omega
      subst hpl0
      refine Or.inl ⟨rfl, rest, rfl, ?_, ?_⟩
      · rw [← hm]
        simp
      · rw [← hnb, if_pos hpb]
        simp
    · rw [if_neg hN] at hpl hpb hm hnb
      have hpb2 := hpb
      rw [Bool.and_eq_true] at hpb2
      obtain ⟨hplb_raw, hcast⟩ := hpb2
      have hplb2 := hplb_raw
      rw [Bool.and_eq_true] at hplb2
      have hlen : (buf.take tl).length = tl := beq_iff_eq.1 hplb2.1
      have hlen4 : ((buf.drop tl).take 4).length = 4 := beq_iff_eq.1 hplb2.2
      have htl4_le : tl + 4 ≤ buf.length := by
        have ha := hlen
        have hb4 := hlen4
        rw [List.length_take] at ha
        rw [List.length_take, List.length_drop] at hb4
        omega
      have hne : ¬ buf.take tl = [78] := by
        intro hc
        rw [hc] at hlen
        have htl1 : tl = 1 := by simpa using hlen.symm
        subst htl1
        exact hN (by rw [hc]; rfl)
      rw [if_pos (by rw [hplb_raw]; rfl)] at hpl
      simp only [unpack_length, PAYLOAD_LENGTH_LENGTH] at hpl
      rw [if_pos hlen4] at hpl
      have hpl' : pl = (toNat4 ((buf.drop tl).take 4) : Int) - 4 :=
        (Option.some_inj.1 hpl).symm
      subst hpl'
      have hplen := beq_iff_eq.1 hcast
      rw [List.length_take, List.length_drop] at hplen
      have h4L : 4 ≤ toNat4 ((buf.drop tl).take 4) := by omega
      have htoNat : ((toNat4 ((buf.drop tl).take 4) : Int) - 4).toNat =
          toNat4 ((buf.drop tl).take 4) - 4 := by omega
      have hLle : tl + toNat4 ((buf.drop tl).take 4) ≤ buf.length := by omega
      refine Or.inr ⟨htl4_le, hne, h4L, hLle, ?_, ?_⟩
      · rw [← hm, htoNat]
      · rw [← hnb, if_pos hpb, htoNat]
        congr 1
        omega
  · rintro (⟨htl, rest, hbuf, hm, hb⟩ | ⟨h1, h2, h3, h4, hm, hb⟩)
    · subst htl hbuf hm hb
      rfl
    · subst hm hb
      have hta : (buf.take tl).length = tl := by
        rw [List.length_take]; omega
      have hplbl : ((buf.drop tl).take 4).length = 4 := by
        rw [List.length_take, List.length_drop]; omega
      simp only [attempt_pop_message, NO_DATA_TYPE, PAYLOAD_LENGTH_LENGTH]
      have hN : (((buf.take tl).length == tl) && (buf.take tl == [78])) = false := by
        simp [hta, h2]
      rw [if_neg (by rw [hN]; simp)]
      have hplb : (((buf.take tl).length == tl) &&
          (((buf.drop tl).take 4).length == 4)) = true := by
        simp [hta, hplbl]
      rw [if_pos (by rw [hplb]; rfl)]
      have hunp : unpack_length ((buf.drop tl).take 4) =
          some ((toNat4 ((buf.drop tl).take 4) : Int) - 4) := by
        unfold unpack_length
        rw [if_pos hplbl]
        rfl
      rw [hunp]
      have htoNat : ((toNat4 ((buf.drop tl).take 4) : Int) - 4).toNat =
          toNat4 ((buf.drop tl).take 4) - 4 := by omega
      have hplen : ((buf.drop (tl + 4)).take
          (toNat4 ((buf.drop tl).take 4) - 4)).length =
          toNat4 ((buf.drop tl).take 4) - 4 := by
        rw [List.length_take, List.length_drop]; omega
      have hpb : (((buf.take tl).length == tl) &&
            (((buf.drop tl).take 4).length == 4) &&
            ((((buf.drop (tl + 4)).take
              ((toNat4 ((buf.drop tl).take 4) : Int) - 4).toNat).length : Int) ==
              (toNat4 ((buf.drop tl).take 4) : Int) - 4)) = true := by
        rw [htoNat]
        simp only [Bool.and_eq_true, beq_iff_eq]
        refine ⟨⟨hta, hplbl⟩, ?_⟩
        rw [hplen]
        omega
      simp only [Option.map_some', Option.some_inj]
      rw [hpb]
      simp only [eq_self_iff_true, if_true]
      rw [htoNat]
      have harith : tl + 4 + (toNat4 ((buf.drop tl).take 4) - 4) =
          tl + toNat4 ((buf.drop tl).take 4) := by omega
      rw [harith]

/-- A successful pop removes exactly the emitted message's bytes from the
front of the buffer: concatenating the three components restores them. -/
theorem attempt_pop_popped_bytes {buf : List Byte} {tl : Nat} {m : Message}
    {buf' : List Byte} (h : attempt_pop_message buf tl = some (true, m, buf')) :
    message_bytes m ++ buf' = buf := by
  rcases (attempt_pop_popped_iff buf tl m buf').1 h with
    ⟨htl, rest, hbuf, hm, hb⟩ | ⟨h1, h2, h3, h4, hm, hb⟩
  · subst hbuf hm hb
    rfl
  · subst hm hb
    simp only [message_bytes, List.append_assoc]
    conv_rhs => rw [← List.take_append_drop tl buf]
    congr 1
    conv_rhs => rw [← List.take_append_drop 4 (buf.drop tl)]
    congr 1
    rw [List.drop_drop]
    conv_rhs => rw [← List.take_append_drop
      (toNat4 ((buf.drop tl).take 4) - 4) (buf.drop (tl + 4))]
    congr 1
    rw [List.drop_drop]
    congr 1
    omega

/-- A successful pop strictly shrinks the buffer. -/
theorem attempt_pop_popped_lt {buf : List Byte} {tl : Nat} {m : Message}
    {buf' : List Byte} (h : attempt_pop_message buf tl = some (true, m, buf')) :
    buf'.length < buf.length := by
  rcases (attempt_pop_popped_iff buf tl m buf').1 h with
    ⟨htl, rest, hbuf, hm, hb⟩ | ⟨h1, h2, h3, h4, hm, hb⟩
  · subst hbuf hb
    simp
  · subst hb
    rw [List.length_drop]
    omega

/-- Bytes appended after a complete message do not change what is popped. -/
theorem attempt_pop_popped_extend {buf : List Byte} {tl : Nat} {m : Message}
    {buf' : List Byte} (ext : List Byte)
    (h : attempt_pop_message buf tl = some (true, m, buf')) :
    attempt_pop_message (buf ++ ext) tl = some (true, m, buf' ++ ext) := by
  rcases (attempt_pop_popped_iff buf tl m buf').1 h with
    ⟨htl, rest, hbuf, hm, hb⟩ | ⟨h1, h2, h3, h4, hm, hb⟩
  · refine (attempt_pop_popped_iff _ _ _ _).2 (Or.inl ⟨htl, rest ++ ext, ?_, hm, ?_⟩)
    · rw [hbuf]
      rfl
    · rw [hb]
  · have e1 : (buf ++ ext).take tl = buf.take tl :=
      List.take_append_of_le_length (by omega)
    have e2 : (buf ++ ext).drop tl = buf.drop tl ++ ext :=
      List.drop_append_of_le_length (by omega)
    have e3 : ((buf ++ ext).drop tl).take 4 = (buf.drop tl).take 4 := by
      rw [e2]
      exact List.take_append_of_le_length (by rw [List.length_drop]; omega)
    have e4 : (buf ++ ext).drop (tl + 4) = buf.drop (tl + 4) ++ ext :=
      List.drop_append_of_le_length (by omega)
    have e5 : (buf.drop (tl + 4) ++ ext).take (toNat4 ((buf.drop tl).take 4) - 4) =
        (buf.drop (tl + 4)).take (toNat4 ((buf.drop tl).take 4) - 4) :=
      List.take_append_of_le_length (by rw [List.length_drop]; omega)
    have e6 : (buf ++ ext).drop (tl + toNat4 ((buf.drop tl).take 4)) =
        buf.drop (tl + toNat4 ((buf.drop tl).take 4)) ++ ext :=
      List.drop_append_of_le_length (by omega)
    refine (attempt_pop_popped_iff _ _ _ _).2 (Or.inr ⟨?_, ?_, ?_, ?_, ?_, ?_⟩)
    · rw [List.length_append]
      omega
    · rw [e1]
      exact h2
    · rw [e3]
      exact h3
    · rw [e3, List.length_append]
      omega
    · rw [e3, e1, e4, e5]
      exact hm
    · rw [e3, e6, hb]

/-- The `while True` pop loop inside `extract_messages` of `app.py`.
The loop terminates because every pop removes at least one byte, so a fuel
of `buffer length + 1` (as used by `extract_messages` below) is always
enough; `extract_loop_fuel` makes the fuel-independence precise.
Returns `(messages, final buffer, final messages_popped)`; `none` models a
Python exception. -/
def extract_loop (num : Nat) : Nat → Nat → List Byte → Option (List Message × List Byte × Nat)
  | 0, messages_popped, buf => some ([], buf, messages_popped)
  | fuel + 1, messages_popped, buf =>
    let type_length := if messages_popped < num then 0 else 1
    match attempt_pop_message buf type_length with
    | none => none
    | some (false, _, buf') => some ([], buf', messages_popped)
    | some (true, msg, buf') =>
      match extract_loop num fuel (messages_popped + 1) buf' with
      | none => none
      | some (ms, rest, p) => some (msg :: ms, rest, p)

/-- `extract_messages(data)` from `app.py`: append `data` to the buffer and
pop as many complete messages as possible. -/
def extract_messages (st : ParserState) (data : List Byte) :
    Option (List Message × ParserState) :=
  let buf := st.data_buffer ++ data
  match extract_loop st.num_startup_messages (buf.length + 1) st.messages_popped buf with
  | none => none
  | some (ms, rest, p) => some (ms, ⟨st.num_startup_messages, rest, p⟩)

/-- Pushing a list of chunks through the framer one at a time, concatenating
the messages produced. -/
def push_chunks (st : ParserState) : List (List Byte) → Option (List Message × ParserState)
  | [] => some ([], st)
  | c :: cs =>
    match extract_messages st c with
    | none => none
    | some (ms, st') =>
      match push_chunks st' cs with
      | none => none
      | some (ms2, st'') => some (ms ++ ms2, st'')

/-- The pop loop never raises. -/
theorem extract_loop_isSome (num : Nat) :
    ∀ (fuel popped : Nat) (buf : List Byte),
      (extract_loop num fuel popped buf).isSome := by
  intro fuel
  induction fuel with
  | zero =>
    intro popped buf
    simp [extract_loop]
  | succ f ih =>
    intro popped buf
    cases hpop : attempt_pop_message buf (if popped < num then 0 else 1) with
    | none =>
      have htot := attempt_pop_total buf (if popped < num then 0 else 1)
      rw [hpop] at htot
      simp at htot
    | some v =>
      obtain ⟨b, msg, buf'⟩ := v
      cases b with
      | false => simp [extract_loop, hpop]
      | true =>
        cases hrec : extract_loop num f (popped + 1) buf' with
        | none =>
          have hs := ih (popped + 1) buf'
          rw [hrec] at hs
          simp at hs
        | some r =>
          obtain ⟨ms0, rest0, p0⟩ := r
          simp [extract_loop, hpop, hrec]

/-- Any two sufficiently large fuels give the same result. -/
theorem extract_loop_fuel (num : Nat) :
    ∀ (f1 : Nat) (buf : List Byte) (f2 popped : Nat),
      buf.length < f1 → buf.length < f2 →
      extract_loop num f1 popped buf = extract_loop num f2 popped buf := by
  intro f1
  induction f1 with
  | zero =>
    intro buf f2 popped h1 h2
    exact absurd h1 (Nat.not_lt_zero _)
  | succ f ih =>
    intro buf f2 popped h1 h2
    cases f2 with
    | zero => exact absurd h2 (Nat.not_lt_zero _)
    | succ g =>
      cases hpop : attempt_pop_message buf (if popped < num then 0 else 1) with
      | none => simp [extract_loop, hpop]
      | some v =>
        obtain ⟨b, msg, buf'⟩ := v
        cases b with
        | false => simp [extract_loop, hpop]
        | true =>
          have hlt := attempt_pop_popped_lt hpop
          simp only [extract_loop, hpop]
          rw [ih buf' g (popped + 1) (by omega) (by omega)]

/-- Round trip of the pop loop: the bytes of the emitted messages followed
by the remaining buffer are exactly the input buffer. -/
theorem extract_loop_bytes (num : Nat) :
    ∀ (fuel popped : Nat) (buf : List Byte) (ms : List Message)
      (rest : List Byte) (p : Nat),
      extract_loop num fuel popped buf = some (ms, rest, p) →
      messages_bytes ms ++ rest = buf := by
  intro fuel
  induction fuel with
  | zero =>
    intro popped buf ms rest p h
    simp only [extract_loop, Option.some_inj, Prod.mk.injEq] at h
    obtain ⟨h1, h2, h3⟩ := h
    subst h1 h2
    simp [messages_bytes]
  | succ f ih =>
    intro popped buf ms rest p h
    cases hpop : attempt_pop_message buf (if popped < num then 0 else 1) with
    | none =>
      have htot := attempt_pop_total buf (if popped < num then 0 else 1)
      rw [hpop] at htot
      simp at htot
    | some v =>
      obtain ⟨b, msg, buf'⟩ := v
      cases b with
      | false =>
        simp only [extract_loop, hpop, Option.some_inj, Prod.mk.injEq] at h
        obtain ⟨h1, h2, h3⟩ := h
        subst h1 h2
        have hb := attempt_pop_not_popped hpop
        rw [hb]
        simp [messages_bytes]
      | true =>
        cases hrec : extract_loop num f (popped + 1) buf' with
        | none => simp [extract_loop, hpop, hrec] at h
        | some r =>
          obtain ⟨ms0, rest0, p0⟩ := r
          simp only [extract_loop, hpop, hrec, Option.some_inj, Prod.mk.injEq] at h
          obtain ⟨h1, h2, h3⟩ := h
          subst h1 h2
          have hbytes := attempt_pop_popped_bytes hpop
          have hih := ih (popped + 1) buf' ms0 rest0 p0 hrec
          rw [messages_bytes, List.map_cons, List.flatten_cons, ← messages_bytes,
            List.append_assoc, hih, hbytes]

/-- Chunking lemma for the pop loop: running the loop on `buf`, then on the
remaining bytes extended with `ext`, is the same as running it on
`buf ++ ext` directly. -/
theorem extract_loop_append (num : Nat) :
    ∀ (f : Nat) (buf : List Byte) (popped : Nat) (ms : List Message)
      (rest : List Byte) (p : Nat) (ext : List Byte) (g k : Nat)
      (ms2 : List Message) (rest2 : List Byte) (p2 : Nat),
      buf.length < f → (buf ++ ext).length < g → (rest ++ ext).length < k →
      extract_loop num f popped buf = some (ms, rest, p) →
      extract_loop num k p (rest ++ ext) = some (ms2, rest2, p2) →
      extract_loop num g popped (buf ++ ext) = some (ms ++ ms2, rest2, p2) := by
  intro f
  induction f with
  | zero =>
    intro buf popped ms rest p ext g k ms2 rest2 p2 h1 h2 h3 h4 h5
    exact absurd h1 (Nat.not_lt_zero _)
  | succ f ih =>
    intro buf popped ms rest p ext g k ms2 rest2 p2 h1 h2 h3 h4 h5
    cases g with
    | zero => exact absurd h2 (Nat.not_lt_zero _)
    | succ g =>
      cases hpop : attempt_pop_message buf (if popped < num then 0 else 1) with
      | none =>
        have htot := attempt_pop_total buf (if popped < num then 0 else 1)
        rw [hpop] at htot
        simp at htot
      | some v =>
        obtain ⟨b, msg, buf'⟩ := v
        cases b with
        | false =>
          simp only [extract_loop, hpop, Option.some_inj, Prod.mk.injEq] at h4
          obtain ⟨hm1, hm2, hm3⟩ := h4
          subst hm1 hm3
          have hb := attempt_pop_not_popped hpop
          rw [hb] at hm2
          subst hm2
          rw [← extract_loop_fuel num k (buf ++ ext) (g + 1) popped h3 h2, h5]
          simp
        | true =>
          cases hrec : extract_loop num f (popped + 1) buf' with
          | none => simp [extract_loop, hpop, hrec] at h4
          | some r =>
            obtain ⟨ms0, rest0, p0⟩ := r
            have hpop2 := attempt_pop_popped_extend ext hpop
            simp only [extract_loop, hpop, hrec, Option.some_inj, Prod.mk.injEq] at h4
            obtain ⟨hm1, hm2, hm3⟩ := h4
            subst hm1 hm2 hm3
            have hlt := attempt_pop_popped_lt hpop
            simp only [extract_loop, hpop2]
            rw [ih buf' (popped + 1) ms0 rest0 p0 ext g k ms2 rest2 p2
              (by omega) (by rw [List.length_append] at h2 ⊢; omega) h3 hrec h5]
            rfl

/-- `extract_messages` never raises. -/
theorem extract_messages_isSome (st : ParserState) (data : List Byte) :
    (extract_messages st data).isSome := by
  cases hres : extract_loop st.num_startup_messages ((st.data_buffer ++ data).length + 1)
      st.messages_popped (st.data_buffer ++ data) with
  | none =>
    have hs := extract_loop_isSome st.num_startup_messages
      ((st.data_buffer ++ data).length + 1) st.messages_popped (st.data_buffer ++ data)
    rw [hres] at hs
    simp at hs
  | some r =>
    obtain ⟨ms, rest, p⟩ := r
    simp only [extract_messages]
    rw [hres]
    rfl

/-- Round trip at the `extract_messages` level. -/
theorem extract_messages_bytes (st : ParserState) (data : List Byte)
    (ms : List Message) (st' : ParserState)
    (h : extract_messages st data = some (ms, st')) :
    messages_bytes ms ++ st'.data_buffer = st.data_buffer ++ data := by
  cases hres : extract_loop st.num_startup_messages ((st.data_buffer ++ data).length + 1)
      st.messages_popped (st.data_buffer ++ data) with
  | none =>
    simp only [extract_messages] at h
    rw [hres] at h
    exact Option.noConfusion h
  | some r =>
    obtain ⟨ms0, rest, p⟩ := r
    simp only [extract_messages] at h
    rw [hres] at h
    simp only [Option.some_inj, Prod.mk.injEq] at h
    obtain ⟨h1, h2⟩ := h
    subst h1
    rw [← h2]
    exact extract_loop_bytes _ _ _ _ _ _ _ hres

/-- Feeding `a ++ b` at once is feeding `a` and then `b`. -/
theorem extract_messages_chunk (st : ParserState) (a b : List Byte)
    (ms ms2 : List Message) (st' st'' : ParserState)
    (h1 : extract_messages st a = some (ms, st'))
    (h2 : extract_messages st' b = some (ms2, st'')) :
    extract_messages st (a ++ b) = some (ms ++ ms2, st'') := by
  cases hr1 : extract_loop st.num_startup_messages ((st.data_buffer ++ a).length + 1)
      st.messages_popped (st.data_buffer ++ a) with
  | none =>
    simp only [extract_messages] at h1
    rw [hr1] at h1
    exact Option.noConfusion h1
  | some r1 =>
    obtain ⟨msA, restA, pA⟩ := r1
    simp only [extract_messages] at h1
    rw [hr1] at h1
    simp only [Option.some_inj, Prod.mk.injEq] at h1
    obtain ⟨hms, hst⟩ := h1
    subst hms
    subst hst
    cases hr2 : extract_loop st.num_startup_messages ((restA ++ b).length + 1) pA
        (restA ++ b) with
    | none =>
      simp only [extract_messages] at h2
      rw [hr2] at h2
      exact Option.noConfusion h2
    | some r2 =>
      obtain ⟨msB, restB, pB⟩ := r2
      simp only [extract_messages] at h2
      rw [hr2] at h2
      simp only [Option.some_inj, Prod.mk.injEq] at h2
      obtain ⟨hms2, hst2⟩ := h2
      subst hms2
      subst hst2
      have key := extract_loop_append st.num_startup_messages
        ((st.data_buffer ++ a).length + 1) (st.data_buffer ++ a) st.messages_popped
        msA restA pA b ((st.data_buffer ++ a ++ b).length + 1) ((restA ++ b).length + 1)
        msB restB pB (by omega) (by omega) (by omega) hr1 hr2
      simp only [extract_messages]
      rw [← List.append_assoc]
      rw [key]

/-- `attempt_pop_message` on the empty buffer: nothing to pop. -/
theorem attempt_pop_nil (tl : Nat) :
    attempt_pop_message [] tl = some (false, ⟨[], [], []⟩, []) := by
  cases tl with
  | zero => rfl
  | succ t => rfl

/-- The pop loop on the empty buffer pops nothing. -/
theorem extract_loop_nil (num fuel popped : Nat) :
    extract_loop num fuel popped [] = some ([], [], popped) := by
  cases fuel with
  | zero => rfl
  | succ f => simp [extract_loop, attempt_pop_nil]

/-- `push_chunks` of a nonempty chunk list is a single `extract_messages`
on the concatenation. -/
theorem push_chunks_cons :
    ∀ (cs : List (List Byte)) (st : ParserState) (c : List Byte),
      push_chunks st (c :: cs) = extract_messages st (c ++ cs.flatten) := by
  intro cs
  induction cs with
  | nil =>
    intro st c
    rw [List.flatten_nil, List.append_nil]
    cases hc : extract_messages st c with
    | none =>
      have hstep : push_chunks st [c] =
          (match extract_messages st c with
           | none => none
           | some (ms, st') =>
             match push_chunks st' ([] : List (List Byte)) with
             | none => none
             | some (ms2, st'') => some (ms ++ ms2, st'')) := rfl
      rw [hstep, hc]
    | some r =>
      obtain ⟨ms, st'⟩ := r
      have hstep : push_chunks st [c] = some (ms ++ [], st') := by
        have h0 : push_chunks st [c] =
            (match extract_messages st c with
             | none => none
             | some (ms, st') =>
               match push_chunks st' ([] : List (List Byte)) with
               | none => none
               | some (ms2, st'') => some (ms ++ ms2, st'')) := rfl
        rw [h0, hc]
        rfl
      rw [hstep]
      simp
  | cons c2 cs ih =>
    intro st c
    cases hc : extract_messages st c with
    | none =>
      have hs := extract_messages_isSome st c
      rw [hc] at hs
      simp at hs
    | some r =>
      obtain ⟨ms, st'⟩ := r
      cases hc2 : extract_messages st' (c2 ++ cs.flatten) with
      | none =>
        have hs := extract_messages_isSome st' (c2 ++ cs.flatten)
        rw [hc2] at hs
        simp at hs
      | some r2 =>
        obtain ⟨ms2, st''⟩ := r2
        have hpc : push_chunks st' (c2 :: cs) = some (ms2, st'') := by
          rw [ih st' c2, hc2]
        have hchunk := extract_messages_chunk st c (c2 ++ cs.flatten) ms ms2 st' st''
          hc hc2
        have h0 : push_chunks st (c :: c2 :: cs) =
            (match extract_messages st c with
             | none => none
             | some (msx, stx) =>
               match push_chunks stx (c2 :: cs) with
               | none => none
               | some (ms2x, stx2) => some (msx ++ ms2x, stx2)) := rfl
        rw [h0, hc]
        have h1 : (match some (ms, st') with
             | none => none
             | some (msx, stx) =>
               match push_chunks stx (c2 :: cs) with
               | none => none
               | some (ms2x, stx2) => some (msx ++ ms2x, stx2)) =
            (match push_chunks st' (c2 :: cs) with
             | none => none
             | some (ms2x, stx2) => some (ms ++ ms2x, stx2)) := rfl
        rw [h1, hpc, List.flatten_cons, hchunk]

/-- Whether one framed message is well formed, following the shapes the
framer produces: startup messages have no type byte; `'N'` has neither
length nor payload; every other message has a one-byte type and a 4-byte
big-endian length field declaring `payload length + 4`. -/
def wf_message (is_startup : Bool) (m : Message) : Bool :=
  if is_startup then
    m.type == [] && (m.payload_length == pack_length m.payload.length) &&
      decide (m.payload.length + 4 < 2 ^ 32)
  else if m.type == NO_DATA_TYPE then
    (m.payload_length == []) && (m.payload == [])
  else
    (m.type.length == 1) && (m.payload_length == pack_length m.payload.length) &&
      decide (m.payload.length + 4 < 2 ^ 32)

/-- A well-formed message stream: the messages at positions below
`num_startup_messages` are startup shaped, the rest are typed. -/
def wf_stream (num : Nat) : Nat → List Message → Bool
  | _, [] => true
  | i, m :: ms => wf_message (decide (i < num)) m && wf_stream num (i + 1) ms

/-- Claim C1: for every byte sequence that is a well-formed concatenation of
PostgreSQL messages (the first `num_startup_messages` of them
startup-shaped), and for every partition of that sequence into chunks,
pushing the chunks one at a time through the framer yields the same
sequence of messages as pushing the whole sequence at once, and
concatenating `type`, `length_bytes` and `payload` of all emitted messages
equals the prefix of the input consumed. -/
theorem framer_round_trip (num : Nat) (msgs : List Message)
    (chunks : List (List Byte))
    (hwf : wf_stream num 0 msgs = true)
    (hin : chunks.flatten = messages_bytes msgs) :
    ∃ (ms : List Message) (st : ParserState),
      push_chunks (ParserState.init num) chunks = some (ms, st) ∧
      extract_messages (ParserState.init num) chunks.flatten = some (ms, st) ∧
      messages_bytes ms ++ st.data_buffer = chunks.flatten := by
  cases chunks with
  | nil =>
    refine ⟨[], ParserState.init num, rfl, ?_, by simp [messages_bytes, ParserState.init]⟩
    simp [extract_messages, ParserState.init, extract_loop_nil]
  | cons c cs =>
    cases hres : extract_messages (ParserState.init num) (c ++ cs.flatten) with
    | none =>
      have hs := extract_messages_isSome (ParserState.init num) (c ++ cs.flatten)
      rw [hres] at hs
      simp at hs
    | some r =>
      obtain ⟨ms, st⟩ := r
      refine ⟨ms, st, ?_, ?_, ?_⟩
      · rw [push_chunks_cons]
        exact hres
      · rw [List.flatten_cons]
        exact hres
      · have hb := extract_messages_bytes (ParserState.init num) (c ++ cs.flatten) ms st hres
        rw [List.flatten_cons, hb]
        rfl

/-- Witness for C1 at a concrete well-formed stream and chunking. -/
theorem framer_round_trip_witness :
    ∃ (ms : List Message) (st : ParserState),
      push_chunks (ParserState.init 0) [[88, 0], [0, 0, 4]] = some (ms, st) ∧
      extract_messages (ParserState.init 0) [[88, 0], [0, 0, 4]].flatten =
        some (ms, st) ∧
      messages_bytes ms ++ st.data_buffer = [[88, 0], [0, 0, 4]].flatten :=
  framer_round_trip 0 [⟨[88], [0, 0, 0, 4], []⟩] [[88, 0], [0, 0, 4]]
    (by decide) (by decide)

/-- Claim C5: after the configured number of startup messages have been
popped, pushing the single byte `'N'` into the framer yields exactly one
message with type `b"N"`, empty `length_bytes` and empty payload,
consuming exactly one byte; no 4-byte length field is read. -/
theorem framer_N_exception (st : ParserState)
    (hbuf : st.data_buffer = [])
    (hpopped : st.num_startup_messages ≤ st.messages_popped) :
    extract_messages st [78] =
      some ([⟨[78], [], []⟩],
        ⟨st.num_startup_messages, [], st.messages_popped + 1⟩) := by
  obtain ⟨num, buf, popped⟩ := st
  simp only at hbuf hpopped
  subst hbuf
  have htl : (if popped < num then 0 else 1) = 1 := if_neg (by omega)
  have hpop : attempt_pop_message [78] 1 = some (true, ⟨[78], [], []⟩, []) := rfl
  have hloop : extract_loop num (([] ++ [78] : List Byte).length + 1) popped
      ([] ++ [78]) = some ([⟨[78], [], []⟩], [], popped + 1) := by
    simp only [List.nil_append]
    show extract_loop num (1 + 1) popped [78] = _
    simp only [extract_loop, htl, hpop, attempt_pop_nil, extract_loop_nil]
  simp only [extract_messages]
  rw [hloop]

/-- Witness for C5 at a concrete parser state. -/
theorem framer_N_exception_witness :
    extract_messages ⟨0, [], 0⟩ [78] = some ([⟨[78], [], []⟩], ⟨0, [], 1⟩) :=
  framer_N_exception ⟨0, [], 0⟩ rfl (by decide)

/-- When the head message of the buffer is not `'N'` but declares a 32-bit
length below 4, `attempt_pop_message` reports "not popped" for ever: the
declared payload length is negative, so `has_payload_bytes` can never hold. -/
theorem attempt_pop_stuck (buf : List Byte) (tl : Nat)
    (h4 : tl + 4 ≤ buf.length)
    (hN : buf.take tl ≠ NO_DATA_TYPE)
    (hlen : toNat4 ((buf.drop tl).take 4) < 4) :
    attempt_pop_message buf tl =
      some (false, ⟨buf.take tl, (buf.drop tl).take 4, []⟩, buf) := by
  have hta : (buf.take tl).length = tl := by rw [List.length_take]; omega
  have hplbl : ((buf.drop tl).take 4).length = 4 := by
    rw [List.length_take, List.length_drop]; omega
  have hN' : ¬ buf.take tl = [78] := hN
  simp only [attempt_pop_message, NO_DATA_TYPE, PAYLOAD_LENGTH_LENGTH]
  have hNc : (((buf.take tl).length == tl) && (buf.take tl == [78])) = false := by
    simp [hta, hN']
  rw [if_neg (by rw [hNc]; simp)]
  have hplb : (((buf.take tl).length == tl) &&
      (((buf.drop tl).take 4).length == 4)) = true := by
    simp [hta, hplbl]
  rw [if_pos (by rw [hplb]; rfl)]
  have hunp : unpack_length ((buf.drop tl).take 4) =
      some ((toNat4 ((buf.drop tl).take 4) : Int) - 4) := by
    unfold unpack_length
    rw [if_pos hplbl]
    rfl
  rw [hunp]
  simp only [Option.map_some', Option.some_inj]
  have htoNat0 : ((toNat4 ((buf.drop tl).take 4) : Int) - 4).toNat = 0 := by omega
  rw [htoNat0]
  rw [List.take_zero]
  have hC : ((([] : List Byte).length : Int) ==
      (toNat4 ((buf.drop tl).take 4) : Int) - 4) = false := by
    rw [beq_eq_false_iff_ne]
    simp only [List.length_nil, Nat.cast_zero, ne_eq]
    omega
  rw [hC, Bool.and_false]
  simp

/-- The stuck condition of claim C9: the buffer holds at least a type byte
(when one is expected) and a 4-byte length field, the type is not `'N'`,
and the declared 32-bit length is below 4. -/
def parser_stuck (st : ParserState) : Prop :=
  (if st.messages_popped < st.num_startup_messages then 0 else 1) + 4 ≤
      st.data_buffer.length ∧
  st.data_buffer.take
      (if st.messages_popped < st.num_startup_messages then 0 else 1) ≠
    NO_DATA_TYPE ∧
  toNat4 ((st.data_buffer.drop
      (if st.messages_popped < st.num_startup_messages then 0 else 1)).take 4) < 4

instance (st : ParserState) : Decidable (parser_stuck st) := by
  unfold parser_stuck
  infer_instance

/-- Claim C9: `extract_messages` is total — no input makes it raise — and
once a non-`'N'` message declares a 32-bit length below 4, the framer never
emits that message or any later one: every subsequent push only grows the
buffer, returns no messages, signals no error, and leaves the parser stuck
again. -/
theorem framer_total_and_stuck (st : ParserState) (data : List Byte) :
    (extract_messages st data).isSome ∧
    (parser_stuck st →
      extract_messages st data =
        some ([], ⟨st.num_startup_messages, st.data_buffer ++ data,
          st.messages_popped⟩) ∧
      parser_stuck ⟨st.num_startup_messages, st.data_buffer ++ data,
        st.messages_popped⟩) := by
  refine ⟨extract_messages_isSome st data, ?_⟩
  intro hstuck
  obtain ⟨num, buf, popped⟩ := st
  unfold parser_stuck at hstuck
  simp only at hstuck
  obtain ⟨hs1, hs2, hs3⟩ := hstuck
  have htake : (buf ++ data).take (if popped < num then 0 else 1) =
      buf.take (if popped < num then 0 else 1) :=
    List.take_append_of_le_length (by omega)
  have hdrop : (buf ++ data).drop (if popped < num then 0 else 1) =
      buf.drop (if popped < num then 0 else 1) ++ data :=
    List.drop_append_of_le_length (by omega)
  have htake4 : ((buf ++ data).drop (if popped < num then 0 else 1)).take 4 =
      (buf.drop (if popped < num then 0 else 1)).take 4 := by
    rw [hdrop]
    exact List.take_append_of_le_length (by rw [List.length_drop]; omega)
  have hpop := attempt_pop_stuck (buf ++ data) (if popped < num then 0 else 1)
    (by rw [List.length_append]; omega)
    (by rw [htake]; exact hs2)
    (by rw [htake4]; exact hs3)
  have hloop : extract_loop num ((buf ++ data).length + 1) popped (buf ++ data) =
      some ([], buf ++ data, popped) := by
    simp only [extract_loop, hpop]
  constructor
  · simp only [extract_messages]
    rw [hloop]
  · unfold parser_stuck
    simp only
    refine ⟨by rw [List.length_append]; omega, by rw [htake]; exact hs2,
      by rw [htake4]; exact hs3⟩

/-- Witness for C9 at a concrete stuck parser state (type `'X'`, declared
length 0). -/
theorem framer_total_and_stuck_witness :
    (extract_messages ⟨0, [88, 0, 0, 0, 0], 0⟩ [1, 2]).isSome ∧
    extract_messages ⟨0, [88, 0, 0, 0, 0], 0⟩ [1, 2] =
      some ([], ⟨0, [88, 0, 0, 0, 0, 1, 2], 0⟩) :=
  ⟨(framer_total_and_stuck ⟨0, [88, 0, 0, 0, 0], 0⟩ [1, 2]).1,
   ((framer_total_and_stuck ⟨0, [88, 0, 0, 0, 0], 0⟩ [1, 2]).2 (by decide)).1⟩

/-! ## MD5 authentication rewriter (`postgres_auth_processor` in `app.py`) -/

/-- ASCII bytes of a string literal. -/
def strBytes (s : String) : List Byte :=
  s.toList.map Char.toNat

/-- `md5(data)` from `app.py` is
`hashlib.md5(data).hexdigest().encode("utf-8")`.  The hash itself lives
outside the repository (Python's `hashlib`), so it is modelled as an
abstract function bundled with the output-shape facts the code relies on:
a hex digest is always 32 lowercase hexadecimal ASCII bytes. -/
structure MD5Hex where
  md5 : List Byte → List Byte
  length_md5 : ∀ b, (md5 b).length = 32
  hex_md5 : ∀ b, ∀ c ∈ md5 b, (48 ≤ c ∧ c ≤ 57) ∨ (97 ≤ c ∧ c ≤ 102)

/-- A concrete inhabitant of `MD5Hex` (constant digest), used to
instantiate witnesses. -/
def md5_const : MD5Hex where
  md5 := fun _ => List.replicate 32 48
  length_md5 := fun _ => List.length_replicate 32 48
  hex_md5 := fun _ c hc => Or.inl (by rw [List.eq_of_mem_replicate hc]; exact ⟨by decide, by decide⟩)

/-- `md5_salted(password, username, salt)` from `app.py`. -/
def md5_salted (M : MD5Hex) (password username salt : List Byte) : List Byte :=
  M.md5 (M.md5 (password ++ username) ++ salt)

/-- Credentials hard-coded in `postgres_auth_processor`. -/
def correct_client_password : List Byte := strBytes "proxy_mysecret"

def correct_server_password : List Byte := strBytes "mysecret"

def correct_client_username : List Byte := strBytes "proxy_postgres"

def correct_server_username : List Byte := strBytes "postgres"

/-- The key `b"user"` looked up in the startup pairs. -/
def userKey : List Byte := strBytes "user"

/-- Fuel-indexed worker for `findPairs` below.  Each recursive call is on a
strictly shorter list, so a fuel of the input length is always enough. -/
def findPairsF : Nat → List Byte → List (List Byte × List Byte)
  | 0, _ => []
  | fuel + 1, l =>
    match l with
    | [] => []
    | b :: rest =>
      if b = 0 then
        let k := rest.takeWhile (fun x => x != 0)
        if k.length = 0 then findPairsF fuel rest
        else
          match rest.drop k.length with
          | 0 :: rest2 =>
            let v := rest2.takeWhile (fun x => x != 0)
            (k, v) :: findPairsF fuel (rest2.drop v.length)
          | _ => findPairsF fuel rest
      else findPairsF fuel rest

/-- `re.compile(b"\x00([^\x00]+)\x00([^\x00]*)").findall(payload)` from
`to_server_startup`: scan left to right; at a NUL, greedily take a nonempty
run of non-NUL bytes as the key, a NUL, then a possibly empty run of
non-NUL bytes as the value; on failure advance one byte; matches do not
overlap. -/
def findPairs (l : List Byte) : List (List Byte × List Byte) :=
  findPairsF l.length l

/-- `dict(pairs_list)[k]` from `app.py`: the value of the *last* binding of
`k`, if any (later bindings shadow earlier ones in a Python dict). -/
def dict_get (l : List (List Byte × List Byte)) (k : List Byte) :
    Option (List Byte) :=
  match l with
  | [] => none
  | kv :: rest =>
    match dict_get rest k with
    | some v => some v
    | none => if kv.1 = k then some kv.2 else none

/-- The canonical StartupMessage payload for a list of key/value pairs:
leading NUL, `key NUL value NUL` for each pair, trailing NUL. -/
def encodePairs (pairs : List (List Byte × List Byte)) : List Byte :=
  [0] ++ (pairs.map fun kv => kv.1 ++ [0] ++ kv.2 ++ [0]).flatten ++ [0]

theorem findPairsF_nil (fuel : Nat) : findPairsF fuel [] = [] := by
  cases fuel <;> rfl

theorem takeWhile_append_zero (a t : List Byte) (ha : ∀ x ∈ a, x ≠ 0) :
    (a ++ 0 :: t).takeWhile (fun x => x != 0) = a := by
  induction a with
  | nil => simp [List.takeWhile_cons]
  | cons x a ih =>
    have hx : (x != 0) = true := by
      have := ha x (by simp)
      simp [this]
    simp only [List.cons_append, List.takeWhile_cons, hx, if_true]
    rw [ih (fun y hy => ha y (by simp [hy]))]

theorem drop_length_append (a t : List Byte) : (a ++ t).drop a.length = t := by
  rw [List.drop_append_of_le_length (le_refl _), List.drop_length,
    List.nil_append]

/-- On a canonical payload the regex scan recovers exactly the pairs,
provided keys are nonempty and keys and values are NUL-free. -/
theorem findPairsF_encode :
    ∀ (pairs : List (List Byte × List Byte)) (fuel : Nat),
      (encodePairs pairs).length ≤ fuel →
      (∀ kv ∈ pairs, kv.1 ≠ [] ∧ (∀ x ∈ kv.1, x ≠ 0) ∧ (∀ x ∈ kv.2, x ≠ 0)) →
      findPairsF fuel (encodePairs pairs) = pairs := by
  intro pairs
  induction pairs with
  | nil =>
    intro fuel hf _
    have h2 : (encodePairs []).length = 2 := rfl
    rw [h2] at hf
    obtain ⟨f, rfl⟩ : ∃ f, fuel = f + 2 := ⟨fuel - 2, by omega⟩
    show findPairsF (f + 1 + 1) [0, 0] = []
    simp [findPairsF, findPairsF_nil]
  | cons kv rest ih =>
    intro fuel hf hc
    obtain ⟨k, v⟩ := kv
    obtain ⟨hk_ne, hk0, hv0⟩ := hc (k, v) (by simp)
    have henc : encodePairs ((k, v) :: rest) =
        0 :: (k ++ 0 :: (v ++ 0 :: ((rest.map fun kv =>
          kv.1 ++ [0] ++ kv.2 ++ [0]).flatten ++ [0]))) := by
      simp [encodePairs, List.append_assoc]
    have henc_rest : encodePairs rest =
        0 :: ((rest.map fun kv => kv.1 ++ [0] ++ kv.2 ++ [0]).flatten ++ [0]) := by
      simp [encodePairs]
    have hlen : (encodePairs ((k, v) :: rest)).length =
        k.length + v.length + 2 + (encodePairs rest).length := by
      rw [henc, henc_rest]
      simp only [List.length_cons, List.length_append]
      omega
    cases fuel with
    | zero =>
      rw [hlen] at hf
      omega
    | succ f =>
      have hk_ne' : k ≠ [] := hk_ne
      have hk0' : ∀ x ∈ k, x ≠ 0 := hk0
      have hv0' : ∀ x ∈ v, x ≠ 0 := hv0
      have e_tk := takeWhile_append_zero k
        (v ++ 0 :: ((rest.map fun kv => kv.1 ++ [0] ++ kv.2 ++ [0]).flatten ++ [0])) hk0'
      have e_dk := drop_length_append k
        ((0 : Byte) :: (v ++ 0 :: ((rest.map fun kv =>
          kv.1 ++ [0] ++ kv.2 ++ [0]).flatten ++ [0])))
      have e_tv := takeWhile_append_zero v
        ((rest.map fun kv => kv.1 ++ [0] ++ kv.2 ++ [0]).flatten ++ [0]) hv0'
      have e_dv := drop_length_append v
        ((0 : Byte) :: ((rest.map fun kv => kv.1 ++ [0] ++ kv.2 ++ [0]).flatten ++ [0]))
      have hkl : (k.length = 0) = False :=
        eq_false (fun h0 => hk_ne' (List.length_eq_zero.1 h0))
      rw [henc]
      show findPairsF (f + 1) (0 :: (k ++ 0 :: (v ++ 0 :: _))) = _
      simp only [findPairsF, eq_self_iff_true, if_true, e_tk, hkl, if_false,
        e_dk, e_tv, e_dv]
      rw [← henc_rest]
      rw [ih f (by rw [hlen] at hf; omega) (fun kv hkv => hc kv (by simp [hkv]))]

theorem findPairs_encode (pairs : List (List Byte × List Byte))
    (hc : ∀ kv ∈ pairs, kv.1 ≠ [] ∧ (∀ x ∈ kv.1, x ≠ 0) ∧ (∀ x ∈ kv.2, x ≠ 0)) :
    findPairs (encodePairs pairs) = pairs :=
  findPairsF_encode pairs (encodePairs pairs).length (le_refl _) hc

theorem dict_get_not_mem (l : List (List Byte × List Byte)) (k : List Byte)
    (h : k ∉ l.map Prod.fst) : dict_get l k = none := by
  induction l with
  | nil => rfl
  | cons p rest ih =>
    simp only [List.map_cons, List.mem_cons, not_or] at h
    obtain ⟨h1, h2⟩ := h
    simp only [dict_get, ih h2]
    rw [if_neg (fun hc => h1 hc.symm)]

theorem dict_get_mem (l : List (List Byte × List Byte))
    (hnd : (l.map Prod.fst).Nodup) (kv : List Byte × List Byte) (hm : kv ∈ l) :
    dict_get l kv.1 = some kv.2 := by
  induction l with
  | nil => simp at hm
  | cons p rest ih =>
    simp only [List.map_cons, List.nodup_cons] at hnd
    obtain ⟨hp, hnd2⟩ := hnd
    rcases List.mem_cons.1 hm with h | h
    · subst h
      have hnone : dict_get rest kv.1 = none := dict_get_not_mem rest kv.1 hp
      simp only [dict_get, hnone]
      simp
    · simp only [dict_get, ih hnd2 h]

/-- `{**pairs, b'user': server_username}[k]`: looking up in the dict with an
extra (overriding) binding appended. -/
theorem dict_get_append_user (pairs : List (List Byte × List Byte))
    (u s k : List Byte) :
    dict_get (pairs ++ [(u, s)]) k = if u = k then some s else dict_get pairs k := by
  induction pairs with
  | nil => by_cases h : u = k <;> simp [dict_get, h]
  | cons p rest ih =>
    have hstep : dict_get ((p :: rest) ++ [(u, s)]) k =
        match dict_get (rest ++ [(u, s)]) k with
        | some v => some v
        | none => if p.1 = k then some p.2 else none := rfl
    rw [hstep, ih]
    by_cases h : u = k
    · rw [if_pos h, if_pos h]
    · rw [if_neg h, if_neg h]
      rfl

/-- `to_server_startup(message)` from `app.py`.  `entropy` stands for
`secrets.token_bytes(32)`; `none` models the `KeyError` raised when the
payload has no `user` key.  Every key of `pairs_list` has a binding in
`pairs_to_send`, so the `getD []` default is never used. -/
def to_server_startup (M : MD5Hex) (entropy : List Byte) (message : Message) :
    Option Message :=
  let pairs_list := findPairs message.payload
  let incorrect_user := M.md5 entropy
  match dict_get pairs_list userKey with
  | none => none
  | some client_username =>
    let server_username :=
      if client_username = correct_client_username then correct_server_username
      else incorrect_user
    let pairs_to_send := pairs_list ++ [(userKey, server_username)]
    let new_payload :=
      [0] ++ (pairs_list.map fun kv =>
        kv.1 ++ [0] ++ (dict_get pairs_to_send kv.1).getD [] ++ [0]).flatten ++ [0]
    some { message with payload_length := pack_length new_payload.length,
                        payload := new_payload }

/-- `to_server_md5_response(message)` from `app.py`.  `entropy` stands for
`secrets.token_bytes(32)`; `none` models the `TypeError` raised when one of
the salts is still `None`. -/
def to_server_md5_response (M : MD5Hex) (entropy : List Byte)
    (client_salt server_salt : Option (List Byte)) (message : Message) :
    Option Message :=
  match client_salt, server_salt with
  | some cs, some ss =>
    let client_md5 := (message.payload.drop 3).dropLast
    let correct_client_md5 :=
      md5_salted M correct_client_password correct_client_username cs
    let correct_server_md5 :=
      md5_salted M correct_server_password correct_server_username ss
    let md5_incorrect := M.md5 entropy
    let server_md5 :=
      if client_md5 = correct_client_md5 then correct_server_md5 else md5_incorrect
    some { message with payload := strBytes "md5" ++ server_md5 ++ [0] }
  | _, _ => none

/-- One message of `c2s_from_outside` of `postgres_auth_processor`. -/
def auth_c2s_message (M : MD5Hex) (entropy : List Byte)
    (client_salt server_salt : Option (List Byte)) (message : Message) :
    Option Message :=
  let is_startup := message.type = [] ∧ message.payload ≠ SSL_REQUEST_PAYLOAD
  let is_md5_response :=
    message.type = strBytes "p" ∧ message.payload.take 3 = strBytes "md5"
  if is_startup then to_server_startup M entropy message
  else if is_md5_response then
    to_server_md5_response M entropy client_salt server_salt message
  else some message

/-- `to_client_md5_request(message)` from `app.py`. -/
def to_client_md5_request (client_salt : List Byte) (message : Message) : Message :=
  { message with payload := message.payload.take 4 ++ client_salt }

/-- One message of `s2c_from_outside` of `postgres_auth_processor`:
returns the emitted message and the updated `(server_salt, client_salt)`.
`entropy4` stands for `secrets.token_bytes(4)`. -/
def auth_s2c_message (entropy4 : List Byte)
    (server_salt client_salt : Option (List Byte)) (message : Message) :
    Message × Option (List Byte) × Option (List Byte) :=
  let is_md5_request :=
    message.type = strBytes "R" ∧ message.payload.take 4 = [0, 0, 0, 5]
  let salts :=
    if is_md5_request then (some ((message.payload.drop 4).take 4), some entropy4)
    else (server_salt, client_salt)
  let message_to_yield :=
    if is_md5_request then to_client_md5_request entropy4 message else message
  (message_to_yield, salts.1, salts.2)

/-- Computation of the `'p'`-message rewrite, shared by C2 and C10. -/
theorem auth_c2s_md5_response_eq (M : MD5Hex) (entropy : List Byte)
    (cs ss : List Byte) (m : Message)
    (htype : m.type = strBytes "p")
    (hmd5 : m.payload.take 3 = strBytes "md5") :
    auth_c2s_message M entropy (some cs) (some ss) m =
      some { m with payload := strBytes "md5" ++
        (if (m.payload.drop 3).dropLast =
            md5_salted M correct_client_password correct_client_username cs
         then md5_salted M correct_server_password correct_server_username ss
         else M.md5 entropy) ++ [0] } := by
  simp only [auth_c2s_message]
  rw [if_neg (fun hc => by rw [htype] at hc; exact absurd hc.1 (by decide))]
  rw [if_pos ⟨htype, hmd5⟩]
  rfl

/-- Claim C2: for the MD5 auth processor handling a client `'p'` message
whose first three payload bytes are `"md5"`, with `server_salt` and
`client_salt` set: if the received digest (payload bytes 3 to −1) equals
`MD5_HEX(MD5_HEX(proxy_password ∥ proxy_user) ∥ client_salt)`, the emitted
payload is `"md5" ∥ MD5_HEX(MD5_HEX(server_password ∥ server_user) ∥
server_salt) ∥ NUL`; otherwise the emitted digest is the MD5 hex of the 32
bytes of fresh random entropy. -/
theorem auth_md5_response_rewrite (M : MD5Hex) (entropy : List Byte)
    (cs ss : List Byte) (m : Message)
    (htype : m.type = strBytes "p")
    (hmd5 : m.payload.take 3 = strBytes "md5")
    (hent : entropy.length = 32) :
    auth_c2s_message M entropy (some cs) (some ss) m =
      some { m with payload := strBytes "md5" ++
        (if (m.payload.drop 3).dropLast =
            md5_salted M correct_client_password correct_client_username cs
         then md5_salted M correct_server_password correct_server_username ss
         else M.md5 entropy) ++ [0] } :=
  auth_c2s_md5_response_eq M entropy cs ss m htype hmd5

/-- Witness for C2 at a concrete matching response. -/
theorem auth_md5_response_rewrite_witness :
    auth_c2s_message md5_const (List.replicate 32 0) (some [1, 2, 3, 4])
        (some [5, 6, 7, 8]) ⟨strBytes "p", [0, 0, 0, 40], strBytes "md5" ++ [0]⟩ =
      some { Message.mk (strBytes "p") [0, 0, 0, 40] (strBytes "md5" ++ [0]) with
        payload := strBytes "md5" ++
        (if (((strBytes "md5" ++ [0] : List Byte)).drop 3).dropLast =
            md5_salted md5_const correct_client_password correct_client_username
              [1, 2, 3, 4]
         then md5_salted md5_const correct_server_password correct_server_username
              [5, 6, 7, 8]
         else md5_const.md5 (List.replicate 32 0)) ++ [0] } :=
  auth_md5_response_rewrite md5_const (List.replicate 32 0) [1, 2, 3, 4]
    [5, 6, 7, 8] ⟨strBytes "p", [0, 0, 0, 40], strBytes "md5" ++ [0]⟩
    rfl (by decide) (by simp)

/-- Claim C6: any message that is neither a startup message (empty type,
payload different from the SSLRequest constant), nor an `'R'` MD5
challenge, nor a `'p'` MD5 response, passes through the MD5 auth processor
unchanged, in both directions, with the salts untouched. -/
theorem auth_non_auth_identity (M : MD5Hex) (entropy entropy4 : List Byte)
    (client_salt server_salt : Option (List Byte)) (m : Message)
    (h1 : ¬ (m.type = [] ∧ m.payload ≠ SSL_REQUEST_PAYLOAD))
    (h2 : ¬ (m.type = strBytes "p" ∧ m.payload.take 3 = strBytes "md5"))
    (h3 : ¬ (m.type = strBytes "R" ∧ m.payload.take 4 = [0, 0, 0, 5])) :
    auth_c2s_message M entropy client_salt server_salt m = some m ∧
    auth_s2c_message entropy4 server_salt client_salt m =
      (m, server_salt, client_salt) := by
  constructor
  · simp only [auth_c2s_message]
    rw [if_neg h1, if_neg h2]
  · simp [auth_s2c_message, h3]

/-- Witness for C6 at a concrete query-phase message. -/
theorem auth_non_auth_identity_witness :
    auth_c2s_message md5_const [] none none ⟨[88], [0, 0, 0, 4], []⟩ =
      some ⟨[88], [0, 0, 0, 4], []⟩ ∧
    auth_s2c_message [] none none ⟨[88], [0, 0, 0, 4], []⟩ =
      (⟨[88], [0, 0, 0, 4], []⟩, none, none) :=
  auth_non_auth_identity md5_const [] [] none none ⟨[88], [0, 0, 0, 4], []⟩
    (by decide) (by decide) (by decide)

/-- Claim C3: a startup-shaped message (empty type) whose payload is not
the SSLRequest constant and is a canonical sequence of NUL-delimited
key/value pairs (distinct, NUL-free, nonempty keys; NUL-free values; a
`user` key present) is rewritten so that the `user` value becomes
`"postgres"` when it was `"proxy_postgres"` and a 32-hex-character digest
of fresh entropy otherwise, every other key keeping its order and value;
the payload is re-emitted as leading NUL, then `key ∥ NUL ∥ value ∥ NUL`
for each original key, then a trailing NUL, and the 4-byte length field is
set to payload length plus 4. -/
theorem auth_startup_rewrite (M : MD5Hex) (entropy : List Byte)
    (cs ss : Option (List Byte)) (m : Message)
    (pairs : List (List Byte × List Byte)) (uv : List Byte)
    (htype : m.type = [])
    (hssl : m.payload ≠ SSL_REQUEST_PAYLOAD)
    (hpayload : m.payload = encodePairs pairs)
    (hshape : ∀ kv ∈ pairs, kv.1 ≠ [] ∧ (∀ x ∈ kv.1, x ≠ 0) ∧ (∀ x ∈ kv.2, x ≠ 0))
    (hnodup : (pairs.map Prod.fst).Nodup)
    (huser : dict_get pairs userKey = some uv) :
    ∃ m', auth_c2s_message M entropy cs ss m = some m' ∧
      m'.type = m.type ∧
      m'.payload = [0] ++ (pairs.map fun kv =>
        kv.1 ++ [0] ++
        (if kv.1 = userKey then
          (if uv = correct_client_username then correct_server_username
           else M.md5 entropy)
         else kv.2) ++ [0]).flatten ++ [0] ∧
      m'.payload_length = pack_length m'.payload.length ∧
      toNat4 m'.payload_length = (m'.payload.length + 4) % 2 ^ 32 ∧
      (uv ≠ correct_client_username →
        (M.md5 entropy).length = 32 ∧
        ∀ c ∈ M.md5 entropy, (48 ≤ c ∧ c ≤ 57) ∨ (97 ≤ c ∧ c ≤ 102)) := by
  have hfp : findPairs m.payload = pairs := by
    rw [hpayload]
    exact findPairs_encode pairs hshape
  set su := if uv = correct_client_username then correct_server_username
    else M.md5 entropy with hsu
  have hlookup : ∀ kv ∈ pairs,
      kv.1 ++ [0] ++ (dict_get (pairs ++ [(userKey, su)]) kv.1).getD [] ++ [0] =
      kv.1 ++ [0] ++ (if kv.1 = userKey then su else kv.2) ++ [0] := by
    intro kv hkv
    rw [dict_get_append_user]
    by_cases hk : kv.1 = userKey
    · rw [if_pos hk.symm, if_pos hk]
      rfl
    · rw [if_neg (fun hc => hk hc.symm), if_neg hk,
        dict_get_mem pairs hnodup kv hkv]
      rfl
  have hcomp : auth_c2s_message M entropy cs ss m = some
      { m with
        payload_length := pack_length ([0] ++ (pairs.map
          fun kv : List Byte × List Byte =>
          kv.1 ++ [0] ++ (dict_get (pairs ++ [(userKey, su)]) kv.1).getD [] ++
            [0]).flatten ++ [0]).length,
        payload := [0] ++ (pairs.map fun kv : List Byte × List Byte =>
          kv.1 ++ [0] ++ (dict_get (pairs ++ [(userKey, su)]) kv.1).getD [] ++
            [0]).flatten ++ [0] } := by
    simp only [auth_c2s_message]
    rw [if_pos ⟨htype, hssl⟩]
    simp only [to_server_startup, hfp, huser]
  have hmap : (pairs.map fun kv : List Byte × List Byte =>
      kv.1 ++ [0] ++ (dict_get (pairs ++ [(userKey, su)]) kv.1).getD [] ++ [0]) =
      (pairs.map fun kv : List Byte × List Byte =>
      kv.1 ++ [0] ++ (if kv.1 = userKey then su else kv.2) ++ [0]) :=
    List.map_congr_left hlookup
  refine ⟨_, hcomp, rfl, ?_, rfl, ?_, ?_⟩
  · show ([0] ++ (pairs.map fun kv : List Byte × List Byte =>
        kv.1 ++ [0] ++ (dict_get (pairs ++ [(userKey, su)]) kv.1).getD [] ++
          [0]).flatten ++ [0] : List Byte) = _
    rw [hmap]
  · exact toNat4_encode4 _
  · intro hne
    exact ⟨M.length_md5 entropy, M.hex_md5 entropy⟩

/-- Witness for C3 at a concrete startup message. -/
theorem auth_startup_rewrite_witness :
    ∃ m', auth_c2s_message md5_const [] none none
        ⟨[], [0, 0, 0, 30],
          encodePairs [(userKey, correct_client_username)]⟩ = some m' ∧
      m'.type = ([] : List Byte) ∧
      m'.payload = [0] ++ ([(userKey, correct_client_username)].map fun kv =>
        kv.1 ++ [0] ++
        (if kv.1 = userKey then
          (if correct_client_username = correct_client_username then
            correct_server_username
           else md5_const.md5 [])
         else kv.2) ++ [0]).flatten ++ [0] ∧
      m'.payload_length = pack_length m'.payload.length ∧
      toNat4 m'.payload_length = (m'.payload.length + 4) % 2 ^ 32 ∧
      (correct_client_username ≠ correct_client_username →
        (md5_const.md5 []).length = 32 ∧
        ∀ c ∈ md5_const.md5 [], (48 ≤ c ∧ c ≤ 57) ∨ (97 ≤ c ∧ c ≤ 102)) :=
  auth_startup_rewrite md5_const [] none none
    ⟨[], [0, 0, 0, 30], encodePairs [(userKey, correct_client_username)]⟩
    [(userKey, correct_client_username)] correct_client_username
    rfl (by decide) rfl (by decide) (by decide) (by decide)

/-- Claim C10: the two MD5-auth rewrites that reuse the incoming message's
length bytes preserve payload length, so the framing invariant
(declared length = payload length + 4) still holds on their output: an
`'R'` MD5 challenge with an 8-byte payload is rewritten to an 8-byte
payload (first 4 bytes ∥ 4-byte client salt), and a `'p'` response with a
36-byte `"md5" ∥ digest ∥ NUL` payload is rewritten to a 36-byte payload. -/
theorem auth_md5_framing_preserved (M : MD5Hex) (entropy e4 : List Byte)
    (cs ss : List Byte) (mR mp : Message)
    (hRtype : mR.type = strBytes "R")
    (hRpl : mR.payload.take 4 = [0, 0, 0, 5])
    (hRlen : mR.payload.length = 8)
    (he4 : e4.length = 4)
    (hRdecl : unpack_length mR.payload_length = some (mR.payload.length : Int))
    (hptype : mp.type = strBytes "p")
    (hpmd5 : mp.payload.take 3 = strBytes "md5")
    (hplen : mp.payload.length = 36)
    (hpdecl : unpack_length mp.payload_length = some (mp.payload.length : Int)) :
    ((auth_s2c_message e4 (some ss) (some cs) mR).1.payload.length = 8 ∧
     (auth_s2c_message e4 (some ss) (some cs) mR).1.payload_length =
       mR.payload_length ∧
     unpack_length (auth_s2c_message e4 (some ss) (some cs) mR).1.payload_length =
       some (((auth_s2c_message e4 (some ss) (some cs) mR).1.payload.length : Int))) ∧
    (∃ mp', auth_c2s_message M entropy (some cs) (some ss) mp = some mp' ∧
      mp'.payload.length = 36 ∧
      mp'.payload_length = mp.payload_length ∧
      unpack_length mp'.payload_length = some ((mp'.payload.length : Int))) := by
  have hcond : mR.type = strBytes "R" ∧ mR.payload.take 4 = [0, 0, 0, 5] :=
    ⟨hRtype, hRpl⟩
  have hR1 : (auth_s2c_message e4 (some ss) (some cs) mR).1 =
      { mR with payload := mR.payload.take 4 ++ e4 } := by
    simp only [auth_s2c_message, to_client_md5_request, if_pos hcond]
  have hRplen : (mR.payload.take 4 ++ e4).length = 8 := by
    rw [List.length_append, List.length_take]
    omega
  have hif32 : (if (mp.payload.drop 3).dropLast =
      md5_salted M correct_client_password correct_client_username cs
      then md5_salted M correct_server_password correct_server_username ss
      else M.md5 entropy).length = 32 := by
    split
    · exact M.length_md5 _
    · exact M.length_md5 _
  have hlen36 : (strBytes "md5" ++
      (if (mp.payload.drop 3).dropLast =
          md5_salted M correct_client_password correct_client_username cs
       then md5_salted M correct_server_password correct_server_username ss
       else M.md5 entropy) ++ [0]).length = 36 := by
    simp only [List.length_append, hif32]
    decide
  refine ⟨⟨?_, ?_, ?_⟩, ?_⟩
  · rw [hR1]
    exact hRplen
  · rw [hR1]
  · rw [hR1]
    show unpack_length mR.payload_length = some (((mR.payload.take 4 ++ e4).length : Int))
    rw [hRdecl, hRlen, hRplen]
  · have heq := auth_c2s_md5_response_eq M entropy cs ss mp hptype hpmd5
    refine ⟨_, heq, hlen36, rfl, ?_⟩
    show unpack_length mp.payload_length = some (((strBytes "md5" ++
      (if (mp.payload.drop 3).dropLast =
          md5_salted M correct_client_password correct_client_username cs
       then md5_salted M correct_server_password correct_server_username ss
       else M.md5 entropy) ++ [0]).length : Int))
    rw [hpdecl, hplen, hlen36]

/-- Witness for C10 at concrete challenge and response messages. -/
theorem auth_md5_framing_preserved_witness :
    ((auth_s2c_message [9, 9, 9, 9] (some [5, 6, 7, 8]) (some [1, 2, 3, 4])
        ⟨strBytes "R", pack_length 8, [0, 0, 0, 5, 1, 2, 3, 4]⟩).1.payload.length = 8 ∧
     (auth_s2c_message [9, 9, 9, 9] (some [5, 6, 7, 8]) (some [1, 2, 3, 4])
        ⟨strBytes "R", pack_length 8, [0, 0, 0, 5, 1, 2, 3, 4]⟩).1.payload_length =
       pack_length 8 ∧
     unpack_length (auth_s2c_message [9, 9, 9, 9] (some [5, 6, 7, 8])
        (some [1, 2, 3, 4])
        ⟨strBytes "R", pack_length 8, [0, 0, 0, 5, 1, 2, 3, 4]⟩).1.payload_length =
       some (((auth_s2c_message [9, 9, 9, 9] (some [5, 6, 7, 8]) (some [1, 2, 3, 4])
        ⟨strBytes "R", pack_length 8, [0, 0, 0, 5, 1, 2, 3, 4]⟩).1.payload.length : Int))) ∧
    (∃ mp', auth_c2s_message md5_const [] (some [1, 2, 3, 4]) (some [5, 6, 7, 8])
        ⟨strBytes "p", pack_length 36,
          strBytes "md5" ++ List.replicate 32 97 ++ [0]⟩ = some mp' ∧
      mp'.payload.length = 36 ∧
      mp'.payload_length = pack_length 36 ∧
      unpack_length mp'.payload_length = some ((mp'.payload.length : Int))) :=
  auth_md5_framing_preserved md5_const [] [9, 9, 9, 9] [1, 2, 3, 4] [5, 6, 7, 8]
    ⟨strBytes "R", pack_length 8, [0, 0, 0, 5, 1, 2, 3, 4]⟩
    ⟨strBytes "p", pack_length 36, strBytes "md5" ++ List.replicate 32 97 ++ [0]⟩
    rfl (by decide) (by decide) (by decide) (by decide)
    rfl (by decide) (by decide) (by decide)

/-! ## JWT-authenticated variant (`jwt_postgresql_proxy.py`) -/

/-- The Python exceptions relevant to `handle_downstream`:
`ProtocolError` and `DownstreamAuthenticationError` are defined by the
module and caught; `ValueError` (tuple-unpacking/`binascii`/`json`/negative
`recv` size) and `KeyError` escape uncaught. -/
inductive PyErr where
  | protocolError
  | downstreamAuthError
  | valueError
  | keyError
deriving DecidableEq, Repr

/-- The result of `json.loads` on a decoded JWT payload, abstracted to the
only field the code reads: an optional `sub` entry (`none` models a
missing key, raising `KeyError`; a non-string `sub` simply compares
unequal to the claimed user). -/
structure JsonObj where
  sub : Option (List Byte)

/-- `b64_decode` from `jwt_postgresql_proxy.py`: re-pad with `'='` (byte
61) to a multiple of 4, then `urlsafe_b64decode`.  The base64 primitive is
outside the repository and abstracted as `U` (`none` = `binascii.Error`,
a `ValueError`). -/
def b64_decode (U : List Byte → Option (List Byte)) (b64_bytes : List Byte) :
    Option (List Byte) :=
  U (b64_bytes ++ List.replicate ((4 - b64_bytes.length % 4) % 4) 61)

/-- The token-verification part of `downstream_authenticate`
(`jwt_postgresql_proxy.py` lines 166–176), classifying every outcome
by the Python exception it raises.  `V sig msg` abstracts
`public_key.verify` (`false` = `InvalidSignature`), `U` abstracts
`urlsafe_b64decode`, `J` abstracts `json.loads`. -/
def verify_token (V : List Byte → List Byte → Bool)
    (U : List Byte → Option (List Byte)) (J : List Byte → Option JsonObj)
    (claimed_user password : List Byte) : Except PyErr Unit :=
  match password.splitOn 46 with
  | [header_b64, payload_b64, signature_b64] =>
    match b64_decode U signature_b64 with
    | none => .error .valueError
    | some sig =>
      if V sig (header_b64 ++ [46] ++ payload_b64) then
        match b64_decode U payload_b64 with
        | none => .error .valueError
        | some payload_bytes =>
          match J payload_bytes with
          | none => .error .valueError
          | some payload =>
            match payload.sub with
            | none => .error .keyError
            | some sub =>
              if claimed_user = sub then .ok () else .error .downstreamAuthError
      else .error .downstreamAuthError
  | _ => .error .valueError

/-- State of one `handle_downstream` call: the unread bytes of the
downstream and upstream sockets, the bytes written to each so far, whether
the upstream TCP connection has been opened, and whether the `finally`
block has closed the sockets. -/
structure DState where
  input : List Byte
  up_input : List Byte
  sent_down : List (List Byte)
  sent_up : List (List Byte)
  upstream_opened : Bool
  closed : Bool
deriving DecidableEq, Repr

/-- Result of a phase of `handle_downstream`: `none` models the phase
never returning (`recv_exactly` spinning on EOF, claim C7); errors carry
the state at raise time. -/
abbrev DRes (α : Type) := Option (Except (PyErr × DState) (α × DState))

/-- `recv_exactly(sock, amount)` on the downstream socket.  A negative
`amount` makes `sock.recv` raise `ValueError`; if fewer than `amount`
bytes will ever arrive, the loop never terminates (C7), modelled as
`none`. -/
def recv_exactly_m (amount : Int) (s : DState) : DRes (List Byte) :=
  if amount = 0 then some (.ok ([], s))
  else if amount < 0 then some (.error (.valueError, s))
  else if amount.toNat ≤ s.input.length then
    some (.ok (s.input.take amount.toNat, { s with input := s.input.drop amount.toNat }))
  else none

/-- `recv_exactly` on the upstream socket (no negative sizes there). -/
def recv_up_m (amount : Nat) (s : DState) : Option (List Byte × DState) :=
  if amount ≤ s.up_input.length then
    some (s.up_input.take amount, { s with up_input := s.up_input.drop amount })
  else none

def send_down (m : List Byte) (s : DState) : DState :=
  { s with sent_down := s.sent_down ++ [m] }

def send_up (m : List Byte) (s : DState) : DState :=
  { s with sent_up := s.sent_up ++ [m] }

/-- `TLS_REQUEST = b'\x00\x00\x00\x08\x04\xd2\x16/'`. -/
def TLS_REQUEST : List Byte := [0, 0, 0, 8, 4, 210, 22, 47]

/-- `TLS_RESPONSE = b'S'`. -/
def TLS_RESPONSE : List Byte := [83]

def PROTOCOL_VERSION : Nat := 196608

def MAX_IN_MEMORY_MESSAGE_LENGTH : Nat := 66560

/-- `MESSAGE_HEADER.pack(tag, len)` (`'!cL'`). -/
def message_header (tag : Byte) (len : Nat) : List Byte :=
  tag :: encode4 len

/-- The minimal `'E'` message `MESSAGE_HEADER.pack(b'E', 4 + 1) + b'\x00'`. -/
def plain_error_message : List Byte := message_header 69 (4 + 1) ++ [0]

/-- The body sent by `downstream_send_auth_error`:
`S FATAL, M Authentication failed, C 28P01`, NUL-terminated fields plus a
trailing NUL. -/
def auth_failed_body : List Byte :=
  [83] ++ strBytes "FATAL" ++ [0] ++
  [77] ++ strBytes "Authentication failed" ++ [0] ++
  [67] ++ strBytes "28P01" ++ [0] ++ [0]

/-- The full `'E'` message sent on `DownstreamAuthenticationError`. -/
def auth_failed_message : List Byte :=
  message_header 69 (4 + auth_failed_body.length) ++ auth_failed_body

/-- What `handle_downstream`'s `except` clauses send to the client for
each escaping exception: the FATAL/28P01 ErrorResponse for
`DownstreamAuthenticationError`, the minimal `'E'` for `ProtocolError`,
and nothing for uncaught errors. -/
def errors_to_sends : PyErr → List (List Byte)
  | .downstreamAuthError => [auth_failed_message]
  | .protocolError => [plain_error_message]
  | .valueError => []
  | .keyError => []

/-- Fuel-indexed worker for `findPairs2`. -/
def findPairs2F : Nat → List Byte → List (List Byte × List Byte)
  | 0, _ => []
  | fuel + 1, l =>
    match l with
    | [] => []
    | b :: rest =>
      let k := (b :: rest).takeWhile (fun x => x != 0)
      if k.length = 0 then findPairs2F fuel rest
      else
        match (b :: rest).drop k.length with
        | 0 :: rest2 =>
          let v := rest2.takeWhile (fun x => x != 0)
          (k, v) :: findPairs2F fuel (rest2.drop v.length)
        | _ => findPairs2F fuel rest

/-- `re.compile(b'([^\x00]+)\x00([^\x00]*)').findall(...)` from
`downstream_startup` (no leading NUL, unlike the `app.py` pattern). -/
def findPairs2 (l : List Byte) : List (List Byte × List Byte) :=
  findPairs2F l.length l

def databaseKey : List Byte := strBytes "database"

/-- `downstream_convert_to_ssl` (TLS wrapping itself carries bytes through
unchanged and is dropped from the byte-level model). -/
def downstream_convert_to_ssl_m (s : DState) : DRes Unit :=
  match recv_exactly_m 8 s with
  | none => none
  | some (.error e) => some (.error e)
  | some (.ok (chunk, s1)) =>
    if chunk ≠ TLS_REQUEST then
      some (.error (.protocolError, send_down plain_error_message s1))
    else
      some (.ok ((), send_down TLS_RESPONSE s1))

/-- `downstream_startup`. -/
def downstream_startup_m (s : DState) : DRes (List Byte × List Byte) :=
  match recv_exactly_m 8 s with
  | none => none
  | some (.error e) => some (.error e)
  | some (.ok (header, s1)) =>
    let startup_message_len := toNat4 (header.take 4)
    let protocol_version := toNat4 (header.drop 4)
    if startup_message_len > MAX_IN_MEMORY_MESSAGE_LENGTH then
      some (.error (.protocolError, s1))
    else if protocol_version ≠ PROTOCOL_VERSION then
      some (.error (.protocolError, send_down plain_error_message s1))
    else
      match recv_exactly_m ((startup_message_len : Int) - 8) s1 with
      | none => none
      | some (.error e) => some (.error e)
      | some (.ok (kvbytes, s2)) =>
        match dict_get (findPairs2 kvbytes) userKey with
        | none => some (.error (.keyError, s2))
        | some u =>
          match dict_get (findPairs2 kvbytes) databaseKey with
          | none => some (.error (.keyError, s2))
          | some d => some (.ok ((u, d), s2))

/-- `downstream_authenticate`. -/
def downstream_authenticate_m (V : List Byte → List Byte → Bool)
    (U : List Byte → Option (List Byte)) (J : List Byte → Option JsonObj)
    (claimed_user : List Byte) (s : DState) : DRes Unit :=
  let s1 := send_down (message_header 82 (4 + 4) ++ encode4 3) s
  match recv_exactly_m 5 s1 with
  | none => none
  | some (.error e) => some (.error e)
  | some (.ok (hdr, s2)) =>
    let tag := hdr.take 1
    let payload_length := toNat4 (hdr.drop 1)
    if payload_length > MAX_IN_MEMORY_MESSAGE_LENGTH then
      some (.error (.protocolError, s2))
    else if tag ≠ [112] then
      some (.error (.protocolError, s2))
    else
      match recv_exactly_m ((payload_length : Int) - 4) s2 with
      | none => none
      | some (.error e) => some (.error e)
      | some (.ok (body, s3)) =>
        match verify_token V U J claimed_user body.dropLast with
        | .error e => some (.error (e, s3))
        | .ok () =>
          some (.ok ((), send_down (message_header 82 (4 + 4) ++ encode4 0) s3))

/-- `upstream_connect`. -/
def upstream_connect_m (s : DState) : DState :=
  { s with upstream_opened := true }

/-- `upstream_convert_to_ssl`. -/
def upstream_convert_to_ssl_m (s : DState) : DRes Unit :=
  match recv_up_m 1 (send_up TLS_REQUEST s) with
  | none => none
  | some (resp, s1) =>
    if resp ≠ TLS_RESPONSE then some (.error (.protocolError, s1))
    else some (.ok ((), s1))

/-- `upstream_startup`. -/
def upstream_startup_m (user database : List Byte) (s : DState) : DState :=
  let pairs := strBytes "user" ++ [0] ++ user ++ [0] ++
    strBytes "database" ++ [0] ++ database ++ [0] ++ [0]
  send_up (encode4 (8 + pairs.length) ++ encode4 PROTOCOL_VERSION ++ pairs) s

/-- `handle_downstream`: the phases in order, the two `except` clauses
(via `errors_to_sends`), and the `finally` that closes both sockets.
`none` models a call that never returns. -/
def handle_downstream_m (V : List Byte → List Byte → Bool)
    (U : List Byte → Option (List Byte)) (J : List Byte → Option JsonObj)
    (input up_input : List Byte) : Option DState :=
  let s0 : DState := ⟨input, up_input, [], [], false, false⟩
  let run : DRes Unit :=
    match downstream_convert_to_ssl_m s0 with
    | none => none
    | some (.error e) => some (.error e)
    | some (.ok (_, s1)) =>
      match downstream_startup_m s1 with
      | none => none
      | some (.error e) => some (.error e)
      | some (.ok ((user, database), s2)) =>
        match downstream_authenticate_m V U J user s2 with
        | none => none
        | some (.error e) => some (.error e)
        | some (.ok (_, s3)) =>
          match upstream_convert_to_ssl_m (upstream_connect_m s3) with
          | none => none
          | some (.error e) => some (.error e)
          | some (.ok (_, s5)) => some (.ok ((), upstream_startup_m user database s5))
  match run with
  | none => none
  | some (.ok (_, s)) => some { s with closed := true }
  | some (.error (e, s)) =>
    some { (errors_to_sends e).foldl (fun t m => send_down m t) s with closed := true }

/-- `recv_exactly` when the buffered input starts with exactly the
requested bytes. -/
theorem recv_exactly_m_pre (pre post up : List Byte) (sd su : List (List Byte))
    (uo cl : Bool) :
    recv_exactly_m (pre.length : Int) ⟨pre ++ post, up, sd, su, uo, cl⟩ =
      some (.ok (pre, ⟨post, up, sd, su, uo, cl⟩)) := by
  by_cases h0 : pre.length = 0
  · have hpre : pre = [] := List.length_eq_zero.1 h0
    subst hpre
    simp [recv_exactly_m]
  · have ht : ((pre.length : Int)).toNat = pre.length := by omega
    unfold recv_exactly_m
    rw [if_neg (by omega), if_neg (by omega),
      if_pos (by rw [ht, List.length_append]; omega)]
    rw [ht]
    simp only [List.take_left, List.drop_left]

/-- One iteration of the `while amount:` loop of `recv_exactly` in
`jwt_postgresql_proxy.py`, over the pair (chunks so far, remaining
`amount`); `sock_recv n` is what `sock.recv(n)` returns. -/
def recv_exactly_step (sock_recv : Nat → List Byte) :
    List (List Byte) × Nat → List (List Byte) × Nat :=
  fun s =>
    if s.2 = 0 then s
    else
      let chunk := sock_recv (min s.2 MAX_IN_MEMORY_MESSAGE_LENGTH)
      (s.1 ++ [chunk], s.2 - chunk.length)

/-- A socket at EOF: `recv` returns `b''` on every call. -/
def eof_recv : Nat → List Byte := fun _ => []

/-- Claim C7 (divergence witness): when EOF arrives while `recv_exactly`
still expects `a + 1` more bytes, the remaining `amount` is unchanged by
any number of loop iterations, so the `while amount:` guard never becomes
false and the loop never terminates — the per-connection handling does not
end and the `finally` that closes the sockets is never reached.
Accordingly the phase model maps any read beyond the bytes that will ever
arrive to `none` (no result). -/
theorem recv_exactly_eof_spins (c : List (List Byte)) (a n : Nat)
    (s : DState) (k : Nat) :
    ((recv_exactly_step eof_recv)^[n] (c, a + 1)).2 = a + 1 ∧
    recv_exactly_m ((s.input.length + k + 1 : Nat) : Int) s = none := by
  constructor
  · induction n generalizing c with
    | zero => rfl
    | succ n ih =>
      rw [Function.iterate_succ_apply]
      have hstep : recv_exactly_step eof_recv (c, a + 1) = (c ++ [[]], a + 1) := by
        simp [recv_exactly_step, eof_recv]
      rw [hstep]
      exact ih (c ++ [[]])
  · unfold recv_exactly_m
    rw [if_neg (by omega), if_neg (by omega), if_neg (by omega)]

/-- Claim C8: a downstream StartupMessage header carrying any protocol
version different from 196608 makes the proxy send an `'E'` message to the
client and close the connection without the upstream connection ever being
opened (when the declared length also exceeds the cap, the `'E'` comes
from the generic `ProtocolError` handler; otherwise the version branch
sends one and the handler a second). -/
theorem jwt_protocol_version_guard (V : List Byte → List Byte → Bool)
    (U : List Byte → Option (List Byte)) (J : List Byte → Option JsonObj)
    (len ver : Nat) (rest up_input : List Byte)
    (hlen : len < 2 ^ 32) (hver : ver < 2 ^ 32) (hne : ver ≠ 196608) :
    ∃ s, handle_downstream_m V U J
        (TLS_REQUEST ++ ((encode4 len ++ encode4 ver) ++ rest)) up_input =
        some s ∧
      plain_error_message ∈ s.sent_down ∧
      s.upstream_opened = false ∧
      s.closed = true := by
  have h1 : downstream_convert_to_ssl_m
      ⟨TLS_REQUEST ++ ((encode4 len ++ encode4 ver) ++ rest), up_input,
        [], [], false, false⟩ =
      some (.ok ((), ⟨(encode4 len ++ encode4 ver) ++ rest, up_input,
        [TLS_RESPONSE], [], false, false⟩)) := by
    have hr : recv_exactly_m 8
        ⟨TLS_REQUEST ++ ((encode4 len ++ encode4 ver) ++ rest), up_input,
          [], [], false, false⟩ =
        some (.ok (TLS_REQUEST, ⟨(encode4 len ++ encode4 ver) ++ rest, up_input,
          [], [], false, false⟩)) :=
      recv_exactly_m_pre TLS_REQUEST _ _ _ _ _ _
    simp only [downstream_convert_to_ssl_m, hr]
    rw [if_neg (fun hc => hc rfl)]
    rfl
  have hr2 : recv_exactly_m 8
      ⟨(encode4 len ++ encode4 ver) ++ rest, up_input,
        [TLS_RESPONSE], [], false, false⟩ =
      some (.ok (encode4 len ++ encode4 ver, ⟨rest, up_input,
        [TLS_RESPONSE], [], false, false⟩)) :=
    recv_exactly_m_pre (encode4 len ++ encode4 ver) _ _ _ _ _ _
  have htk : (encode4 len ++ encode4 ver).take 4 = encode4 len :=
    List.take_left (encode4 len) (encode4 ver)
  have hdp : (encode4 len ++ encode4 ver).drop 4 = encode4 ver :=
    List.drop_left (encode4 len) (encode4 ver)
  by_cases hmax : len > 66560
  · have h2 : downstream_startup_m ⟨(encode4 len ++ encode4 ver) ++ rest,
        up_input, [TLS_RESPONSE], [], false, false⟩ =
        some (.error (.protocolError, ⟨rest, up_input,
          [TLS_RESPONSE], [], false, false⟩)) := by
      simp only [downstream_startup_m, MAX_IN_MEMORY_MESSAGE_LENGTH,
        PROTOCOL_VERSION, hr2, htk, hdp, toNat4_encode4,
        Nat.mod_eq_of_lt hlen, Nat.mod_eq_of_lt hver]
      rw [if_pos hmax]
    refine ⟨⟨rest, up_input, [TLS_RESPONSE, plain_error_message], [],
      false, true⟩, ?_, by simp, rfl, rfl⟩
    simp only [handle_downstream_m, h1, h2, errors_to_sends]
    rfl
  · have h2 : downstream_startup_m ⟨(encode4 len ++ encode4 ver) ++ rest,
        up_input, [TLS_RESPONSE], [], false, false⟩ =
        some (.error (.protocolError, ⟨rest, up_input,
          [TLS_RESPONSE, plain_error_message], [], false, false⟩)) := by
      simp only [downstream_startup_m, MAX_IN_MEMORY_MESSAGE_LENGTH,
        PROTOCOL_VERSION, hr2, htk, hdp, toNat4_encode4,
        Nat.mod_eq_of_lt hlen, Nat.mod_eq_of_lt hver]
      rw [if_neg hmax, if_pos hne]
      rfl
    refine ⟨⟨rest, up_input,
      [TLS_RESPONSE, plain_error_message, plain_error_message], [],
      false, true⟩, ?_, by simp, rfl, rfl⟩
    simp only [handle_downstream_m, h1, h2, errors_to_sends]
    rfl

/-- Witness for C8 at a concrete bad protocol version. -/
theorem jwt_protocol_version_guard_witness :
    ∃ s, handle_downstream_m (fun _ _ => true) (fun b => some b)
        (fun _ => some ⟨none⟩)
        (TLS_REQUEST ++ ((encode4 10 ++ encode4 0) ++ [])) [] = some s ∧
      plain_error_message ∈ s.sent_down ∧
      s.upstream_opened = false ∧
      s.closed = true :=
  jwt_protocol_version_guard (fun _ _ => true) (fun b => some b)
    (fun _ => some ⟨none⟩) 10 0 [] [] (by decide) (by decide) (by decide)

/-- An always-accepting signature check, for concrete runs. -/
def trivial_verify : List Byte → List Byte → Bool := fun _ _ => true

/-- A base64 primitive that accepts everything unchanged, for concrete runs. -/
def id_b64 : List Byte → Option (List Byte) := fun b => some b

/-- A JSON primitive whose objects carry no `sub`, for concrete runs. -/
def no_sub_json : List Byte → Option JsonObj := fun _ => some ⟨none⟩

/-- Counterexample to claim C4 as stated: a password message whose body
has the wrong number of `'.'`-separated segments (here `b"xy"`, one
segment) raises `ValueError` (from tuple unpacking), not
`DownstreamAuthenticationError`; the uncaught error sends nothing, so the
client never receives the `S=FATAL M=Authentication failed C=28P01`
ErrorResponse — it only ever saw `'S'` and the cleartext-password
request. -/
theorem jwt_auth_error_counterexample :
    verify_token trivial_verify id_b64 no_sub_json (strBytes "a") [120, 121] =
      .error .valueError ∧
    PyErr.valueError ≠ PyErr.downstreamAuthError ∧
    handle_downstream_m trivial_verify id_b64 no_sub_json
        (TLS_REQUEST ++ (encode4 27 ++ encode4 196608 ++
          (strBytes "user" ++ [0] ++ strBytes "a" ++ [0] ++
           strBytes "database" ++ [0] ++ strBytes "d" ++ [0] ++ [0]) ++
          ([112] ++ encode4 7 ++ [120, 121, 0]))) [] =
      some ⟨[], [], [TLS_RESPONSE, message_header 82 (4 + 4) ++ encode4 3], [],
        false, true⟩ ∧
    auth_failed_message ∉
      [TLS_RESPONSE, message_header 82 (4 + 4) ++ encode4 3] := by
  refine ⟨rfl, by decide, rfl, by decide⟩

/-- Claim C4 as amended: of the five listed failure modes, only an invalid
Ed25519 signature and a `sub` mismatch raise
`DownstreamAuthenticationError` (for which `handle_downstream` sends the
`'E'` with `S=FATAL, M=Authentication failed, C=28P01` before the
`finally` closes both sockets); a wrong number of `'.'`-separated
segments, undecodable base64, or an unparsable JSON payload raise
`ValueError` (and a missing `sub` key raises `KeyError`), which no
`except` clause catches, so the client receives no `'E'` message at all
(the sockets are still closed by the `finally`). -/
theorem jwt_auth_error_classification (V : List Byte → List Byte → Bool)
    (U : List Byte → Option (List Byte)) (J : List Byte → Option JsonObj)
    (user token : List Byte) :
    ((token.splitOn 46).length ≠ 3 →
      verify_token V U J user token = .error .valueError) ∧
    (∀ hb pb sg, token.splitOn 46 = [hb, pb, sg] →
      (b64_decode U sg = none →
        verify_token V U J user token = .error .valueError) ∧
      (∀ sig, b64_decode U sg = some sig →
        (V sig (hb ++ [46] ++ pb) = false →
          verify_token V U J user token = .error .downstreamAuthError) ∧
        (V sig (hb ++ [46] ++ pb) = true →
          (b64_decode U pb = none →
            verify_token V U J user token = .error .valueError) ∧
          (∀ pbs, b64_decode U pb = some pbs →
            (J pbs = none → verify_token V U J user token = .error .valueError) ∧
            (∀ obj, J pbs = some obj →
              (obj.sub = none →
                verify_token V U J user token = .error .keyError) ∧
              (∀ sb, obj.sub = some sb → user ≠ sb →
                verify_token V U J user token =
                  .error .downstreamAuthError)))))) ∧
    errors_to_sends .downstreamAuthError = [auth_failed_message] ∧
    errors_to_sends .protocolError = [plain_error_message] ∧
    errors_to_sends .valueError = [] ∧
    errors_to_sends .keyError = [] := by
  refine ⟨?_, ?_, rfl, rfl, rfl, rfl⟩
  · intro h3
    rcases hsp : token.splitOn 46 with _ | ⟨a, _ | ⟨b, _ | ⟨c, _ | ⟨d, l⟩⟩⟩⟩
    · simp [verify_token, hsp]
    · simp [verify_token, hsp]
    · simp [verify_token, hsp]
    · rw [hsp] at h3
      simp at h3
    · simp [verify_token, hsp]
  · intro hb pb sg hsp
    refine ⟨?_, ?_⟩
    · intro hdec
      simp [verify_token, hsp, hdec]
    · intro sig hsig
      refine ⟨?_, ?_⟩
      · intro hV
        simp only [List.append_assoc, List.cons_append, List.nil_append] at hV
        simp [verify_token, hsp, hsig, hV]
      · intro hV
        simp only [List.append_assoc, List.cons_append, List.nil_append] at hV
        refine ⟨?_, ?_⟩
        · intro hdec
          simp [verify_token, hsp, hsig, hV, hdec]
        · intro pbs hpbs
          refine ⟨?_, ?_⟩
          · intro hJ
            simp [verify_token, hsp, hsig, hV, hpbs, hJ]
          · intro obj hobj
            refine ⟨?_, ?_⟩
            · intro hsub
              simp [verify_token, hsp, hsig, hV, hpbs, hobj, hsub]
            · intro sb hsb hne
              simp [verify_token, hsp, hsig, hV, hpbs, hobj, hsb, hne]

/-- Witness for the amended C4 at concrete inputs: a one-segment token
raises `ValueError`; a three-segment token with a failing signature check
raises `DownstreamAuthenticationError`. -/
theorem jwt_auth_error_classification_witness :
    verify_token trivial_verify id_b64 no_sub_json (strBytes "a") [120, 121] =
      .error .valueError ∧
    verify_token (fun _ _ => false) id_b64 no_sub_json (strBytes "a")
      [97, 46, 98, 46, 99] = .error .downstreamAuthError :=
  ⟨(jwt_auth_error_classification trivial_verify id_b64 no_sub_json
      (strBytes "a") [120, 121]).1 (by decide),
   (((jwt_auth_error_classification (fun _ _ => false) id_b64 no_sub_json
      (strBytes "a") [97, 46, 98, 46, 99]).2.1 [97] [98] [99]
      (by decide)).2 [99, 61, 61, 61] (by decide)).1 rfl⟩

end PostgresAuditProxy
